import Mathlib

/-!
# A shallow embedding of `downloader.go`

The Go program probes a URL with a HEAD request, and either fetches it with one
unranged GET (`singleDownload`) or splits it into `concurreny` byte ranges that are
fetched by one goroutine each (`multiDownload`, `downloadPartial`) and concatenated
afterwards (`merge`).

Modelling decisions.

* Go `int` values are modelled by `Int`.  Every quantity the range loop computes is
  bounded in absolute value by `|contentLen| + concurreny`, far from the 64-bit limit
  for any resource and goroutine count the program can handle, so no wrap-around is
  modelled: the statements are about runs with `|contentLen| + concurreny < 2 ^ 63`.
  Go's `/` on `int` truncates toward zero: `Int.tdiv`.
* The file system is a finite map from path strings to nodes (regular file or
  directory).  Paths are compared as strings, without normalisation.  Opening a path
  for writing fails when the path is empty, when it is a directory, when it is free
  and the directory it would be created in is missing or is not a directory, and
  when the host refuses it (`Env.denyWrite`: permissions, a read-only medium, limits);
  opening for reading fails when the path is free or the host refuses it
  (`Env.denyRead`).  A run on a real host is the run of the model in the environment
  whose `denyWrite` and `denyRead` are the refusals of that host.  Writes to an open
  file and removals of what exists succeed.
* The network is a function from requests to responses (`Env.roundTrip`); `none` is a
  transport error.  Every request handed to the network is appended to
  `World.requests`.  A response body is the list of byte slices that the successive
  `Read` calls deliver.
* The progress-bar library is not part of the repository.  The bar is a record of its
  maximum and its count; how `Add` and `Write` change it and when they report an error
  is a parameter (`Env.barAdd`).
* The goroutines of `multiDownload` are run one after the other in index order.  Each
  goroutine touches only its own part file, so the file system after `wg.Wait()` does
  not depend on the interleaving.
* `log.Fatal` ends the process (`Outcome.exit`); deferred calls do not run.
-/

namespace FileDownload

/-! ## Data model -/

/-- File contents: sequences of byte values. -/
abbrev Bytes := List Nat

/-- A node of the file system. -/
inductive Node
  | file (data : Bytes)
  | dir
  deriving DecidableEq, Repr

/-- The file system: an association list from paths to nodes, at most one entry per path. -/
abbrev FS := List (String × Node)

/-- Go `error` values that the program can observe. -/
inductive GoError
  | notExist (path : String)
  | isDirectory (path : String)
  | permission (path : String)
  | transport (url : String)
  | progress
  deriving DecidableEq, Repr

/-- An HTTP request.  `range = some (s, e)` stands for the header
`Range: bytes=s-e`, which by RFC 7233 selects the bytes at offsets `s, ..., e`,
both ends included. -/
structure Request where
  method : String
  url : String
  range : Option (Int × Int)
  deriving DecidableEq, Repr

/-- An HTTP response, reduced to the fields the program reads. `AcceptRanges` is
`resp.Header.Get("Accept-Ranges")` (empty when the header is absent); `ContentLength`
is `-1` when the length is unknown; `Body` lists the byte slices that the successive
`Read` calls on `resp.Body` deliver into the 32 KiB buffer of `io.CopyBuffer`. -/
structure Response where
  StatusCode : Int
  AcceptRanges : String
  ContentLength : Int
  Body : List Bytes
  deriving DecidableEq, Repr

/-- The progress bar `d.bar`, reduced to its maximum and its current count. -/
structure Bar where
  max : Int
  count : Int
  deriving DecidableEq, Repr

/-- The environment of the program. `roundTrip` is the network. `badURL` tells which
URLs `http.NewRequest` rejects (for these `roundTrip` is expected to answer `none`).
`pathBase` is the library function `path.Base`.
`denyWrite` and `denyRead` tell which paths the host refuses to open, create or list
for reasons the file-system state of the model does not show. `barAdd` is `Add`, and
`Write`, of the progress-bar library: the new bar, and whether an error is reported. -/
structure Env where
  roundTrip : Request → Option Response
  badURL : String → Bool
  pathBase : String → String
  denyWrite : String → Bool
  denyRead : String → Bool
  barAdd : Bar → Int → Bar × Bool

/-- The state the program acts on. -/
structure World where
  fs : FS
  requests : List Request
  bar : Bar
  deriving DecidableEq, Repr

/-- How a call ends: it returns a value, the process exits through `log.Fatal`, or it
panics.  Each case carries the state reached. -/
inductive Outcome (α : Type)
  | ret (w : World) (a : α)
  | exit (w : World)
  | panic (w : World)
  deriving DecidableEq, Repr

/-- The type `Downloader` of the source, without the progress bar, which lives in `World`. -/
structure Downloader where
  concurreny : Int
  resume : Bool
  deriving DecidableEq, Repr

/-- The constructor `NewDownloader`. -/
def NewDownloader (concurrency : Int) (resume : Bool) : Downloader :=
  { concurreny := concurrency, resume := resume }

/-- The constant `http.StatusOK`. -/
def StatusOK : Int := 200

/-! ## File-system primitives -/

/-- The node stored at path `p`, if any. -/
def lookupNode : FS → String → Option Node
  | [], _ => none
  | (q, n) :: rest, p => if q = p then some n else lookupNode rest p

/-- Removes the entry of path `p`. -/
def eraseNode (fs : FS) (p : String) : FS :=
  fs.filter (fun e => decide (e.1 ≠ p))

/-- Stores node `n` at path `p`, replacing what was there. -/
def putNode (fs : FS) (p : String) (n : Node) : FS :=
  (p, n) :: eraseNode fs p

/-- Path `q` lies strictly below directory `p`. -/
def isBelow (p q : String) : Bool :=
  (p ++ "/").data.isPrefixOf q.data

/-- The directory part of a path: the text before its last slash, or `none` when the
path has no slash. -/
def parentPath (p : String) : Option String :=
  if '/' ∈ p.data then
    some (String.mk ((p.data.reverse.dropWhile (fun c => decide (c ≠ '/'))).drop 1).reverse)
  else none

/-- The directory in which path `p` would be created is there: the working directory
for a path without a slash, the root for a path directly below it, and otherwise a
directory node of the file system. -/
def parentIsDir (fs : FS) (p : String) : Bool :=
  match parentPath p with
  | none => true
  | some q => decide (q = "") || decide (lookupNode fs q = some Node.dir)

/-- Writing `data` at offset `off` into a file holding `old`: the bytes before `off`
are kept (a hole is filled with zeros), `data` replaces what it covers, and what lies
beyond the written bytes stays. Nothing is truncated. -/
def writeAt (old : Bytes) (off : Nat) (data : Bytes) : Bytes :=
  old.take off ++ List.replicate (off - old.length) 0 ++ data ++ old.drop (off + data.length)

/-- The call `os.OpenFile(name, flags, 0666)` with `flags` being `O_CREATE|O_WRONLY`,
with or without `O_APPEND`: the error, or the file system (with the file created
empty when the path was free) and the content the file has when it is opened. -/
def OpenFile (env : Env) (fs : FS) (name : String) : Except GoError (FS × Bytes) :=
  if name = "" then Except.error (GoError.notExist name)
  else if env.denyWrite name then Except.error (GoError.permission name)
  else
    match lookupNode fs name with
    | some Node.dir => Except.error (GoError.isDirectory name)
    | some (Node.file old) => Except.ok (fs, old)
    | none =>
      if parentIsDir fs name then Except.ok (putNode fs name (Node.file []), [])
      else Except.error (GoError.notExist name)

/-- The call `ioutil.ReadFile(name)`: the content and the error. -/
def ReadFile (env : Env) (fs : FS) (name : String) : Bytes × Option GoError :=
  if env.denyRead name then ([], some (GoError.permission name))
  else
    match lookupNode fs name with
    | some (Node.file data) => (data, none)
    | some Node.dir => ([], some (GoError.isDirectory name))
    | none => ([], some (GoError.notExist name))

/-- The call `os.Mkdir(name, 0777)`, its error dropped as in the source: creates the
directory unless the path is empty, refused by the host, already taken, or without a
directory to be created in. -/
def Mkdir (env : Env) (fs : FS) (name : String) : FS :=
  if name = "" then fs
  else if env.denyWrite name then fs
  else
    match lookupNode fs name with
    | none => if parentIsDir fs name then putNode fs name Node.dir else fs
    | some _ => fs

/-- The call `os.Remove(name)`, its error dropped as in the source: removes a regular
file, or a directory that has nothing below it. -/
def Remove (fs : FS) (name : String) : FS :=
  match lookupNode fs name with
  | some (Node.file _) => eraseNode fs name
  | some Node.dir => if fs.any (fun e => isBelow name e.1) then fs else eraseNode fs name
  | none => fs

/-- The call `os.RemoveAll(name)`: removes the path and everything below it; the empty
path is accepted and ignored. -/
def RemoveAll (fs : FS) (name : String) : FS :=
  if name = "" then fs
  else fs.filter (fun e => decide (e.1 ≠ name) && !isBelow name e.1)

/-! ## Naming of the staging area -/

/-- The call `strings.Index(s, ".")` on the characters of `s`. -/
def indexDot : List Char → Option Nat
  | [] => none
  | c :: cs => if c = '.' then some 0 else (indexDot cs).map (· + 1)

/-- The call `strings.SplitN(s, ".", 2)`: the text before the first dot and the text
after it, or `s` alone when it has no dot. -/
def splitN2Dot (s : String) : List String :=
  match indexDot s.data with
  | none => [s]
  | some k => [String.mk (s.data.take k), String.mk (s.data.drop (k + 1))]

/-- The method `getPartDir`: element 0 of `strings.SplitN(fileName, ".", 2)`. -/
def Downloader.getPartDir (_d : Downloader) (fileName : String) : String :=
  (splitN2Dot fileName).headD ""

/-- The method `getPartFilename`: `fmt.Sprintf("%s/%s-%d", partDir, fileName, partNum)`. -/
def Downloader.getPartFilename (d : Downloader) (fileName : String) (partNum : Int) : String :=
  d.getPartDir fileName ++ "/" ++ fileName ++ "-" ++ toString partNum

/-- The method `setBar`: a fresh bar of the given length. -/
def setBar (w : World) (length : Int) : World :=
  { w with bar := { max := length, count := 0 } }

/-- The call `d.bar.Add(n)` with its error dropped. -/
def barAdd (env : Env) (w : World) (n : Int) : World :=
  { w with bar := (env.barAdd w.bar n).1 }

/-- Appends a request to the log of issued requests. -/
def logRequest (w : World) (req : Request) : World :=
  { w with requests := w.requests ++ [req] }

/-! ## Fetching one range -/

/-- The call `io.CopyBuffer(io.MultiWriter(file, d.bar), resp.Body, buf)` on the slices
still to be read: each non-empty slice is written to the file (at the end under
`O_APPEND`, else at the offset of the handle) and then to the bar, and the copy stops
at the first error of the bar. The result is the content of the file, the bar, and
whether the copy ended with an error. -/
def copyBody (env : Env) (append : Bool) :
    List Bytes → Bytes → Nat → Bar → Bytes × Bar × Bool
  | [], content, _, bar => (content, bar, false)
  | [] :: rest, content, off, bar => copyBody env append rest content off bar
  | (b :: bs) :: rest, content, off, bar =>
    let content1 := if append then content ++ (b :: bs) else writeAt content off (b :: bs)
    let r := env.barAdd bar ((b :: bs).length : Nat)
    if r.2 then (content1, r.1, true)
    else copyBody env append rest content1 (off + (b :: bs).length) r.1

/-- The method `downloadPartial`. With `rangeStart >= rangeEnd` it returns at once.
Otherwise it builds the request (`log.Fatal` when `http.NewRequest` rejects the URL),
issues `GET strURL` with the header `Range: bytes=rangeStart-rangeEnd`, opens the part
file with `O_CREATE|O_WRONLY`, and `O_APPEND` under `d.resume`, and copies the body
into the part file and the progress bar; a transport error, a part file that cannot
be opened and an error of the copy end the process through `log.Fatal`. -/
def Downloader.downloadPartial (d : Downloader) (env : Env) (w : World)
    (strURL fileName : String) (rangeStart rangeEnd i : Int) : Outcome Unit :=
  if rangeStart ≥ rangeEnd then Outcome.ret w ()
  else if env.badURL strURL then Outcome.exit w
  else
    let req : Request := { method := "GET", url := strURL, range := some (rangeStart, rangeEnd) }
    let w1 := logRequest w req
    match env.roundTrip req with
    | none => Outcome.exit w1
    | some resp =>
      match OpenFile env w1.fs (d.getPartFilename fileName i) with
      | Except.error _ => Outcome.exit w1
      | Except.ok (fs1, old) =>
        let r := copyBody env d.resume resp.Body old 0 w1.bar
        let w2 : World :=
          { w1 with fs := putNode fs1 (d.getPartFilename fileName i) (Node.file r.1),
                    bar := r.2.1 }
        if r.2.2 then Outcome.exit w2 else Outcome.ret w2 ()

/-! ## Planning the ranges -/

/-- The loop `for i := 0; i < d.concurreny; i++` of `multiDownload`, with `n` iterations
left: the pairs `(i, rangeStart)` handed to the goroutines. After each goroutine is
started, `rangeStart += partSize + 1`. -/
def spawnLoop (partSize : Int) : Nat → Int → Int → List (Int × Int)
  | 0, _, _ => []
  | n + 1, i, rangeStart =>
    (i, rangeStart) :: spawnLoop partSize n (i + 1) (rangeStart + (partSize + 1))

/-- The value of `rangeEnd` in goroutine `i`: `rangeStart + partSize`, and `contentLen`
for the last part. -/
def Downloader.rangeEnd (d : Downloader) (contentLen partSize i rangeStart : Int) : Int :=
  if i = d.concurreny - 1 then contentLen else rangeStart + partSize

/-- The value of `downloaded` in goroutine `i`: 0, replaced under `d.resume` by the
length of what `ioutil.ReadFile` returned when it returned an error (`err != nil`). -/
def Downloader.downloaded (d : Downloader) (env : Env) (fs : FS) (fileName : String)
    (i : Int) : Int :=
  if d.resume then
    match ReadFile env fs (d.getPartFilename fileName i) with
    | (content, some _) => content.length
    | (_, none) => 0
  else 0

/-- The body of goroutine `i`: computes `rangeEnd` and `downloaded`, reports `downloaded`
to the bar under `d.resume`, and calls
`downloadPartial(strURL, fileName, rangeStart+downloaded, rangeEnd, i)`. -/
def Downloader.goroutine (d : Downloader) (env : Env) (strURL fileName : String)
    (contentLen partSize : Int) (w : World) (i rangeStart : Int) : Outcome Unit :=
  let rangeEnd := d.rangeEnd contentLen partSize i rangeStart
  let downloaded := d.downloaded env w.fs fileName i
  let w1 := if d.resume then barAdd env w downloaded else w
  d.downloadPartial env w1 strURL fileName (rangeStart + downloaded) rangeEnd i

/-- Runs the goroutines in the order in which they were started. -/
def Downloader.runGoroutines (d : Downloader) (env : Env) (strURL fileName : String)
    (contentLen partSize : Int) : List (Int × Int) → World → Outcome Unit
  | [], w => Outcome.ret w ()
  | (i, rangeStart) :: rest, w =>
    match d.goroutine env strURL fileName contentLen partSize w i rangeStart with
    | Outcome.ret w1 _ => d.runGoroutines env strURL fileName contentLen partSize rest w1
    | Outcome.exit w1 => Outcome.exit w1
    | Outcome.panic w1 => Outcome.panic w1

/-- The arguments `(rangeStart, rangeEnd)` of the calls of `downloadPartial` that
`multiDownload` makes with resume disabled, in the order of the part index `i`. -/
def Downloader.plan (d : Downloader) (contentLen : Int) : List (Int × Int) :=
  let partSize := contentLen.tdiv d.concurreny
  (spawnLoop partSize d.concurreny.toNat 0 0).map
    (fun a => (a.2, d.rangeEnd contentLen partSize a.1 a.2))

/-- Offset `b` is selected by the header `Range: bytes=s-e`. -/
def inRange (r : Int × Int) (b : Int) : Prop := r.1 ≤ b ∧ b ≤ r.2

instance (r : Int × Int) (b : Int) : Decidable (inRange r b) := by
  unfold inRange; infer_instance

/-- The number of bytes the header `Range: bytes=s-e` selects, for `s ≤ e + 1`. -/
def rangeSize (r : Int × Int) : Int := r.2 - r.1 + 1

/-- The interval sent in the Range header of part `i`, resume disabled: the planned
pair of part `i` when it passes the guard `rangeStart >= rangeEnd` of
`downloadPartial`, and `none` when the guard stops the call before any header is
built. -/
def Downloader.sentRange (d : Downloader) (contentLen : Int) (i : Nat) : Option (Int × Int) :=
  match (d.plan contentLen)[i]? with
  | some r => if r.1 ≥ r.2 then none else some r
  | none => none

/-- The ranges that go over the wire: the planned calls that pass the guard
`rangeStart >= rangeEnd` of `downloadPartial`. -/
def Downloader.wireRanges (d : Downloader) (contentLen : Int) : List (Int × Int) :=
  (d.plan contentLen).filter (fun r => decide (¬ r.1 ≥ r.2))

/-! ## Merging -/

/-- One `io.Copy(destFile, partFile)` for a part holding `data`, the destination handle
standing at offset `off`. -/
def copyToDest (fs : FS) (fileName : String) (off : Nat) (data : Bytes) : FS :=
  match lookupNode fs fileName with
  | some (Node.file old) => putNode fs fileName (Node.file (writeAt old off data))
  | _ => fs

/-- The loop of `merge` with `n` iterations left, at part `i`, the destination handle
at offset `off`. A part that cannot be opened ends the loop with the error. A part
path that is a directory opens, yields no bytes (the error of `io.Copy` is dropped),
and is passed to `os.Remove`. -/
def Downloader.mergeLoop (d : Downloader) (env : Env) (fileName : String) :
    Nat → Int → FS → Nat → FS × Option GoError
  | 0, _, fs, _ => (fs, none)
  | n + 1, i, fs, off =>
    let partFilename := d.getPartFilename fileName i
    if env.denyRead partFilename then (fs, some (GoError.permission partFilename))
    else
      match lookupNode fs partFilename with
      | none => (fs, some (GoError.notExist partFilename))
      | some (Node.file data) =>
        d.mergeLoop env fileName n (i + 1)
          (Remove (copyToDest fs fileName off data) partFilename) (off + data.length)
      | some Node.dir => d.mergeLoop env fileName n (i + 1) (Remove fs partFilename) off

/-- The method `merge`: opens the destination with `O_CREATE|O_WRONLY` (no truncation,
offset 0) and returns the error when that fails; then copies and removes the parts
in index order. -/
def Downloader.merge (d : Downloader) (env : Env) (fs : FS) (fileName : String) :
    FS × Option GoError :=
  match OpenFile env fs fileName with
  | Except.error e => (fs, some e)
  | Except.ok (fs1, _) => d.mergeLoop env fileName d.concurreny.toNat 0 fs1 0

/-! ## The download paths -/

/-- The part of `multiDownload` up to and including `wg.Wait()`: sets the bar, computes
`partSize` (division by zero panics), creates the staging directory, and runs the
goroutines (`wg.Add` panics on a negative count, after `RemoveAll` was deferred). -/
def Downloader.fetchParts (d : Downloader) (env : Env) (w : World)
    (strURL fileName : String) (contentLen : Int) : Outcome Unit :=
  let w1 := setBar w contentLen
  if d.concurreny = 0 then Outcome.panic w1
  else
    let partSize := contentLen.tdiv d.concurreny
    let partDir := d.getPartDir fileName
    let w2 := { w1 with fs := Mkdir env w1.fs partDir }
    if d.concurreny < 0 then Outcome.panic { w2 with fs := RemoveAll w2.fs partDir }
    else
      d.runGoroutines env strURL fileName contentLen partSize
        (spawnLoop partSize d.concurreny.toNat 0 0) w2

/-- The method `multiDownload`: after the goroutines it calls `d.merge(fileName)`,
drops the result, and returns `nil`; the deferred `os.RemoveAll(partDir)` runs last. -/
def Downloader.multiDownload (d : Downloader) (env : Env) (w : World)
    (strURL fileName : String) (contentLen : Int) : Outcome (Option GoError) :=
  match d.fetchParts env w strURL fileName contentLen with
  | Outcome.ret w1 _ =>
    let merged := d.merge env w1.fs fileName
    Outcome.ret { w1 with fs := RemoveAll merged.1 (d.getPartDir fileName) } none
  | Outcome.exit w1 => Outcome.exit w1
  | Outcome.panic w1 => Outcome.panic w1

/-- The method `singleDownload`: one unranged `GET` (`http.Get`, whose error covers a
rejected URL), streamed into the destination (opened with `O_CREATE|O_WRONLY`) and the
bar. Its errors are returned. -/
def Downloader.singleDownload (_d : Downloader) (env : Env) (w : World)
    (strURL fileName : String) : Outcome (Option GoError) :=
  let req : Request := { method := "GET", url := strURL, range := none }
  let w1 := logRequest w req
  match env.roundTrip req with
  | none => Outcome.ret w1 (some (GoError.transport strURL))
  | some resp =>
    let w2 := setBar w1 resp.ContentLength
    match OpenFile env w2.fs fileName with
    | Except.error e => Outcome.ret w2 (some e)
    | Except.ok (fs1, old) =>
      let r := copyBody env false resp.Body old 0 w2.bar
      Outcome.ret { w2 with fs := putNode fs1 fileName (Node.file r.1), bar := r.2.1 }
        (if r.2.2 then some GoError.progress else none)

/-- The method `Download`: a `HEAD` probe (`http.Head`, whose error covers a rejected
URL), then `multiDownload` with the declared content length when the status is
`StatusOK` and `Accept-Ranges` is `bytes`, and `singleDownload` otherwise. -/
def Downloader.Download (d : Downloader) (env : Env) (w : World)
    (strURL fileName : String) : Outcome (Option GoError) :=
  let fileName := if fileName = "" then env.pathBase strURL else fileName
  let req : Request := { method := "HEAD", url := strURL, range := none }
  let w1 := logRequest w req
  match env.roundTrip req with
  | none => Outcome.ret w1 (some (GoError.transport strURL))
  | some resp =>
    if resp.StatusCode = StatusOK ∧ resp.AcceptRanges = "bytes" then
      d.multiDownload env w1 strURL fileName resp.ContentLength
    else
      d.singleDownload env w1 strURL fileName

/-! ## A sample environment -/

/-- A body delivered by one `Read`, or by none when it is empty. -/
def oneRead (data : Bytes) : List Bytes :=
  match data with
  | [] => []
  | b :: bs => [b :: bs]

/-- A sample environment for evaluating the program on concrete inputs. The server
holds `content`, answers `HEAD` with status 200, `Accept-Ranges: bytes` and the content
length `declared`, answers a `GET` carrying `Range: bytes=s-e` with status 206 and the
bytes at offsets `s, ..., e` that exist, and any other request with status 200 and the
whole content. Every URL is accepted and the host refuses no path. The bar adds to its
count and reports an error when the count has passed a maximum that is not negative. -/
def sampleEnv (content : Bytes) (declared : Int) : Env where
  roundTrip := fun req =>
    if req.method = "HEAD" then some ⟨200, "bytes", declared, []⟩
    else match req.range with
      | some (s, e) =>
        some ⟨206, "bytes", e + 1 - s, oneRead ((content.drop s.toNat).take (e + 1 - s).toNat)⟩
      | none => some ⟨200, "bytes", content.length, oneRead content⟩
  badURL := fun _ => false
  pathBase := fun _ => "index.html"
  denyWrite := fun _ => false
  denyRead := fun _ => false
  barAdd := fun bar n =>
    ({ bar with count := bar.count + n }, decide (0 ≤ bar.max ∧ bar.max < bar.count + n))

/-- The state before a run: the given file system, no request issued, an unset bar. -/
def initialWorld (fs : FS) : World := { fs := fs, requests := [], bar := ⟨0, 0⟩ }

/-! ## Lemmas on the range plan -/

theorem spawnLoop_eq_map (partSize : Int) (n : Nat) (i rangeStart : Int) :
    spawnLoop partSize n i rangeStart =
      (List.range n).map (fun k : Nat => (i + k, rangeStart + k * (partSize + 1))) := by
  induction n generalizing i rangeStart with
  | zero => simp [spawnLoop]
  | succ n ih =>
    rw [spawnLoop, ih, List.range_succ_eq_map, List.map_cons, List.map_map]
    refine congrArg₂ List.cons (by simp) ?_
    apply List.map_congr_left
    intro k _
    simp only [Function.comp_apply, Nat.succ_eq_add_one, Nat.cast_add, Nat.cast_one, Prod.mk.injEq]
    constructor <;> ring

theorem plan_eq_map (d : Downloader) (contentLen : Int) :
    d.plan contentLen =
      (List.range d.concurreny.toNat).map (fun k : Nat =>
        ((k : Int) * (contentLen.tdiv d.concurreny + 1),
          d.rangeEnd contentLen (contentLen.tdiv d.concurreny) k
            ((k : Int) * (contentLen.tdiv d.concurreny + 1)))) := by
  simp [Downloader.plan, spawnLoop_eq_map, List.map_map, Function.comp_def]

theorem plan_length (d : Downloader) (contentLen : Int) :
    (d.plan contentLen).length = d.concurreny.toNat := by
  simp [plan_eq_map]

theorem plan_getElem? (d : Downloader) (contentLen : Int) (k : Nat)
    (hk : (k : Int) < d.concurreny) :
    (d.plan contentLen)[k]? =
      some ((k : Int) * (contentLen.tdiv d.concurreny + 1),
        d.rangeEnd contentLen (contentLen.tdiv d.concurreny) k
          ((k : Int) * (contentLen.tdiv d.concurreny + 1))) := by
  have hk2 : k < d.concurreny.toNat := by omega
  simp [plan_eq_map, List.getElem?_range hk2]

theorem plan_adjacent (d : Downloader) (contentLen : Int) (i : Nat)
    (hi : (i : Int) + 1 < d.concurreny) :
    ∃ ri rj : Int × Int, (d.plan contentLen)[i]? = some ri ∧
      (d.plan contentLen)[i + 1]? = some rj ∧
      ri.2 = ri.1 + contentLen.tdiv d.concurreny ∧ rj.1 = ri.2 + 1 := by
  have h1 := plan_getElem? d contentLen i (by omega)
  have h2 := plan_getElem? d contentLen (i + 1) (by push_cast; omega)
  refine ⟨_, _, h1, h2, ?_, ?_⟩
  · have hne : ¬ ((i : Int) = d.concurreny - 1) := by omega
    simp [Downloader.rangeEnd, hne]
  · have hne : ¬ ((i : Int) = d.concurreny - 1) := by omega
    simp only [Downloader.rangeEnd, hne, if_false]
    push_cast
    ring

theorem downloadPartial_guard (d : Downloader) (env : Env) (w : World)
    (strURL fileName : String) (rangeStart rangeEnd i : Int) (h : rangeStart ≥ rangeEnd) :
    d.downloadPartial env w strURL fileName rangeStart rangeEnd i = Outcome.ret w () := by
  simp [Downloader.downloadPartial, h]

theorem goroutine_calls_planned_range (d : Downloader) (env : Env) (strURL fileName : String)
    (contentLen partSize : Int) (w : World) (i rangeStart : Int) (hr : d.resume = false) :
    d.goroutine env strURL fileName contentLen partSize w i rangeStart =
      d.downloadPartial env w strURL fileName rangeStart
        (d.rangeEnd contentLen partSize i rangeStart) i := by
  simp [Downloader.goroutine, Downloader.downloaded, hr]

theorem runGoroutines_guarded (d : Downloader) (env : Env) (strURL fileName : String)
    (contentLen partSize : Int) (hr : d.resume = false) (l : List (Int × Int))
    (h : ∀ a ∈ l, a.2 ≥ d.rangeEnd contentLen partSize a.1 a.2) (w : World) :
    d.runGoroutines env strURL fileName contentLen partSize l w = Outcome.ret w () := by
  induction l with
  | nil => simp [Downloader.runGoroutines]
  | cons a rest ih =>
    obtain ⟨i, rs⟩ := a
    have ha := h (i, rs) (List.mem_cons_self _ _)
    have hg : d.goroutine env strURL fileName contentLen partSize w i rs = Outcome.ret w () := by
      rw [goroutine_calls_planned_range _ _ _ _ _ _ _ _ _ hr]
      exact downloadPartial_guard d env w strURL fileName _ _ i ha
    simp only [Downloader.runGoroutines, hg]
    exact ih (fun b hb => h b (List.mem_cons_of_mem _ hb))

theorem plan_short (d : Downloader) (contentLen : Int)
    (h0 : 0 ≤ contentLen) (hL : contentLen < d.concurreny) :
    ∀ a ∈ spawnLoop (contentLen.tdiv d.concurreny) d.concurreny.toNat 0 0,
      a.2 ≥ d.rangeEnd contentLen (contentLen.tdiv d.concurreny) a.1 a.2 := by
  intro a ha
  rw [Int.tdiv_eq_zero_of_lt h0 hL] at ha ⊢
  rw [spawnLoop_eq_map, List.mem_map] at ha
  obtain ⟨k, hk, rfl⟩ := ha
  rw [List.mem_range] at hk
  simp only [Downloader.rangeEnd]
  split <;> omega

theorem fetchParts_short (d : Downloader) (env : Env) (w : World) (strURL fileName : String)
    (contentLen : Int) (h0 : 0 ≤ contentLen) (hL : contentLen < d.concurreny)
    (hr : d.resume = false) :
    d.fetchParts env w strURL fileName contentLen =
      Outcome.ret { setBar w contentLen with
        fs := Mkdir env (setBar w contentLen).fs (d.getPartDir fileName) } () := by
  have h1 : ¬ d.concurreny = 0 := by omega
  have h2 : ¬ d.concurreny < 0 := by omega
  simp only [Downloader.fetchParts, h1, h2, if_false]
  exact runGoroutines_guarded d env strURL fileName contentLen _ hr _
    (plan_short d contentLen h0 hL) _

/-! ## The claims on the range plan -/

/-- C1, evaluated at the failing input `L = 100000`, `N = 4` (resume disabled): the four
calls of `downloadPartial` get the ranges `(0, 25000)`, `(25001, 50001)`,
`(50002, 75002)` and `(75003, 100000)`, all four go over the wire, their sizes as
Range headers sum to 100001, not to 100000, and the last one selects offset 100000,
which lies outside `[0, 100000)`. At `L = 3`, `N = 4` no range is requested at all, so
offsets 0, 1 and 2 lie in no requested range. -/
theorem C1_plan_is_not_a_partition :
    (NewDownloader 4 false).plan 100000 =
        [(0, 25000), (25001, 50001), (50002, 75002), (75003, 100000)] ∧
      (NewDownloader 4 false).wireRanges 100000 = (NewDownloader 4 false).plan 100000 ∧
      (((NewDownloader 4 false).plan 100000).map rangeSize).sum = 100001 ∧
      inRange (75003, 100000) 100000 ∧
      (NewDownloader 4 false).plan 3 = [(0, 0), (1, 1), (2, 2), (3, 3)] ∧
      (NewDownloader 4 false).wireRanges 3 = [] := by
  decide

/-- C2, evaluated at the failing input `L = 100000`, `N = 4`: `baseSize` is 25000, but
the three non-final intervals sent over the wire hold 25001 bytes each and the final
one holds 24998. -/
theorem C2_wire_sizes_at_100000_by_4 :
    (100000 : Int).tdiv 4 = 25000 ∧
      ((NewDownloader 4 false).wireRanges 100000).map rangeSize =
        [25001, 25001, 25001, 24998] := by
  decide

/-- C8: there are a total length and a concurrency degree `N ≥ 2` at which the ranges
that `multiDownload` requests drop a byte. At `L = 1`, `N = 2` (resume disabled), part 0
is non-final with `rangeStart_0 = 0` and `rangeStart_1 = 1`; the byte at offset `b = 0`
lies in `[rangeStart_0, rangeStart_1)` and in the resource `[0, L)`; the call for part 0
is stopped by the guard of `downloadPartial`, so no interval is sent in its Range
header, and no part sends an interval that contains `b`: the run issues no request. -/
theorem C8_requested_ranges_drop_a_byte :
    ∃ (d : Downloader) (contentLen : Int) (i : Nat) (b : Int) (ri rj : Int × Int),
      d.resume = false ∧ 2 ≤ d.concurreny ∧ (i : Int) + 1 < d.concurreny ∧
      (d.plan contentLen)[i]? = some ri ∧ (d.plan contentLen)[i + 1]? = some rj ∧
      ri.1 ≤ b ∧ b < rj.1 ∧ 0 ≤ b ∧ b < contentLen ∧
      (∀ r : Int × Int, d.sentRange contentLen i = some r → ¬ inRange r b) ∧
      (∀ (j : Nat) (r : Int × Int), d.sentRange contentLen j = some r → ¬ inRange r b) ∧
      (∀ r ∈ d.wireRanges contentLen, ¬ inRange r b) ∧
      ∀ (env : Env) (w : World) (strURL fileName : String),
        ∃ w1 : World, d.fetchParts env w strURL fileName contentLen = Outcome.ret w1 () ∧
          w1.requests = w.requests := by
  have hplan : (NewDownloader 2 false).plan 1 = [(0, 0), (1, 1)] := by decide
  have hsent : ∀ (j : Nat) (r : Int × Int),
      (NewDownloader 2 false).sentRange 1 j = some r → ¬ inRange r 0 := by
    intro j r h
    simp only [Downloader.sentRange, hplan] at h
    match j, h with
    | 0, h => simp at h
    | 1, h => simp at h
    | n + 2, h => simp at h
  refine ⟨NewDownloader 2 false, 1, 0, 0, (0, 0), (1, 1), rfl, by decide, by decide,
    by decide, by decide, by decide, by decide, by decide, by decide, hsent 0, hsent,
    by decide, ?_⟩
  intro env w strURL fileName
  exact ⟨_, fetchParts_short (NewDownloader 2 false) env w strURL fileName 1
    (by decide) (by decide) rfl, by simp [setBar]⟩

/-- C9: for every concurrency degree `N ≥ 1` and total length `0 ≤ L < N`, resume
disabled, `multiDownload` plans `N` calls of `downloadPartial`, each with
`rangeStart ≥ rangeEnd`; each call returns at the guard leaving the state as it was,
no range goes over the wire, and the goroutines together issue no request. -/
theorem C9_short_resource_requests_nothing (d : Downloader) (contentLen : Int)
    (hN : 1 ≤ d.concurreny) (h0 : 0 ≤ contentLen) (hL : contentLen < d.concurreny)
    (hr : d.resume = false) :
    (d.plan contentLen).length = d.concurreny.toNat ∧
      (∀ r ∈ d.plan contentLen, r.1 ≥ r.2) ∧
      (∀ (env : Env) (w : World) (strURL fileName : String) (i : Int),
        ∀ r ∈ d.plan contentLen,
          d.downloadPartial env w strURL fileName r.1 r.2 i = Outcome.ret w ()) ∧
      d.wireRanges contentLen = [] ∧
      ∀ (env : Env) (w : World) (strURL fileName : String),
        ∃ w1 : World, d.fetchParts env w strURL fileName contentLen = Outcome.ret w1 () ∧
          w1.requests = w.requests := by
  have hplan : ∀ r ∈ d.plan contentLen, r.1 ≥ r.2 := by
    intro r hr
    simp only [Downloader.plan, List.mem_map] at hr
    obtain ⟨a, ha, rfl⟩ := hr
    exact plan_short d contentLen h0 hL a ha
  refine ⟨plan_length d contentLen, hplan, ?_, ?_, ?_⟩
  · intro env w strURL fileName i r hr
    exact downloadPartial_guard d env w strURL fileName r.1 r.2 i (hplan r hr)
  · simp only [Downloader.wireRanges, List.filter_eq_nil_iff, decide_eq_true_eq, not_not]
    exact hplan
  · intro env w strURL fileName
    have h1 : ¬ d.concurreny = 0 := by omega
    have h2 : ¬ d.concurreny < 0 := by omega
    refine ⟨{ setBar w contentLen with
        fs := Mkdir env (setBar w contentLen).fs (d.getPartDir fileName) }, ?_, ?_⟩
    · simp only [Downloader.fetchParts, h1, h2, if_false]
      exact runGoroutines_guarded d env strURL fileName contentLen _ hr _
        (plan_short d contentLen h0 hL) _
    · simp [setBar]

/-- C9 at `N = 4`, `L = 3`. -/
theorem C9_short_resource_requests_nothing_witness :
    ((NewDownloader 4 false).plan 3).length = (NewDownloader 4 false).concurreny.toNat ∧
      (∀ r ∈ (NewDownloader 4 false).plan 3, r.1 ≥ r.2) ∧
      (∀ (env : Env) (w : World) (strURL fileName : String) (i : Int),
        ∀ r ∈ (NewDownloader 4 false).plan 3,
          (NewDownloader 4 false).downloadPartial env w strURL fileName r.1 r.2 i
            = Outcome.ret w ()) ∧
      (NewDownloader 4 false).wireRanges 3 = [] ∧
      ∀ (env : Env) (w : World) (strURL fileName : String),
        ∃ w1 : World,
          (NewDownloader 4 false).fetchParts env w strURL fileName 3 = Outcome.ret w1 () ∧
            w1.requests = w.requests :=
  C9_short_resource_requests_nothing (NewDownloader 4 false) 3 (by decide) (by decide)
    (by decide) rfl

/-! ## The claims on resume, the no-op guard, dispatch and error propagation -/

/-- C3, evaluated at a failing input: resume enabled, `N = 2`, `L = 10`, and the staging
file of part 1 (range start 6, range end 10) already holding the `K = 2` bytes at
offsets 6 and 7. `ReadFile` succeeds, so `downloaded` stays 0: part 1 is requested with
`Range: bytes=6-10`, from the start of the range and not from offset 8, and the body
is appended to the staged bytes. -/
theorem C3_resume_restarts_at_range_start :
    (NewDownloader 2 true).downloaded (sampleEnv [0, 1, 2, 3, 4, 5, 6, 7, 8, 9] 10)
        [("a", Node.dir), ("a/a.bin-1", Node.file [6, 7])] "a.bin" 1 = 0 ∧
      (NewDownloader 2 true).fetchParts (sampleEnv [0, 1, 2, 3, 4, 5, 6, 7, 8, 9] 10)
          (initialWorld [("a", Node.dir), ("a/a.bin-1", Node.file [6, 7])]) "u" "a.bin" 10 =
        Outcome.ret
          { fs := [("a/a.bin-1", Node.file [6, 7, 6, 7, 8, 9]),
                   ("a/a.bin-0", Node.file [0, 1, 2, 3, 4, 5]), ("a", Node.dir)],
            requests := [⟨"GET", "u", some (0, 5)⟩, ⟨"GET", "u", some (6, 10)⟩],
            bar := ⟨10, 10⟩ } () := by
  decide

/-- C5: a call of `downloadPartial` with `rangeStart ≥ rangeEnd` returns normally, and
the state it returns has the request log, the file system and the progress bar of the
state it was called in. -/
theorem C5_downloadPartial_is_a_noop (d : Downloader) (env : Env) (w : World)
    (strURL fileName : String) (rangeStart rangeEnd i : Int) (h : rangeStart ≥ rangeEnd) :
    ∃ w1 : World,
      d.downloadPartial env w strURL fileName rangeStart rangeEnd i = Outcome.ret w1 () ∧
        w1.requests = w.requests ∧ w1.fs = w.fs ∧ w1.bar = w.bar :=
  ⟨w, downloadPartial_guard d env w strURL fileName rangeStart rangeEnd i h, rfl, rfl, rfl⟩

/-- C5 at a part whose staged data exists, called with `rangeStart = rangeEnd = 10`. -/
theorem C5_downloadPartial_is_a_noop_witness :
    (10 : Int) ≥ 10 ∧ ∃ w1 : World,
      (NewDownloader 2 true).downloadPartial (sampleEnv [0, 1, 2, 3, 4, 5, 6, 7, 8, 9] 10)
          (initialWorld [("a", Node.dir), ("a/a.bin-1", Node.file [6, 7, 8, 9])])
          "u" "a.bin" 10 10 1 = Outcome.ret w1 () ∧
        w1.requests = (initialWorld [("a", Node.dir), ("a/a.bin-1", Node.file [6, 7, 8, 9])]).requests ∧
        w1.fs = (initialWorld [("a", Node.dir), ("a/a.bin-1", Node.file [6, 7, 8, 9])]).fs ∧
        w1.bar = (initialWorld [("a", Node.dir), ("a/a.bin-1", Node.file [6, 7, 8, 9])]).bar :=
  ⟨by decide, C5_downloadPartial_is_a_noop (NewDownloader 2 true)
    (sampleEnv [0, 1, 2, 3, 4, 5, 6, 7, 8, 9] 10)
    (initialWorld [("a", Node.dir), ("a/a.bin-1", Node.file [6, 7, 8, 9])])
    "u" "a.bin" 10 10 1 (by decide)⟩

/-- C6, refuted: a `HEAD` response with status 200, `Accept-Ranges: bytes` and a
declared content length of 0 (an empty resource), or of -1 (a 3-byte resource whose
length is not declared), sends `Download` into `multiDownload`. In the second run no
`GET` is issued and the destination is left empty, where `singleDownload` issues an
unranged `GET` and stores the three bytes. -/
theorem C6_zero_or_absent_length_takes_multiDownload :
    (NewDownloader 2 false).Download (sampleEnv [] 0) (initialWorld []) "u" "a.bin" =
        (NewDownloader 2 false).multiDownload (sampleEnv [] 0)
          (logRequest (initialWorld []) ⟨"HEAD", "u", none⟩) "u" "a.bin" 0 ∧
      (NewDownloader 2 false).Download (sampleEnv [] 0) (initialWorld []) "u" "a.bin" ≠
        (NewDownloader 2 false).singleDownload (sampleEnv [] 0)
          (logRequest (initialWorld []) ⟨"HEAD", "u", none⟩) "u" "a.bin" ∧
      (NewDownloader 2 false).Download (sampleEnv [0, 1, 2] (-1)) (initialWorld []) "u" "a.bin" =
        (NewDownloader 2 false).multiDownload (sampleEnv [0, 1, 2] (-1))
          (logRequest (initialWorld []) ⟨"HEAD", "u", none⟩) "u" "a.bin" (-1) ∧
      (NewDownloader 2 false).Download (sampleEnv [0, 1, 2] (-1)) (initialWorld []) "u" "a.bin" =
        Outcome.ret
          { fs := [("a.bin", Node.file [])], requests := [⟨"HEAD", "u", none⟩],
            bar := ⟨-1, 0⟩ } none ∧
      (NewDownloader 2 false).singleDownload (sampleEnv [0, 1, 2] (-1))
          (logRequest (initialWorld []) ⟨"HEAD", "u", none⟩) "u" "a.bin" =
        Outcome.ret
          { fs := [("a.bin", Node.file [0, 1, 2])],
            requests := [⟨"HEAD", "u", none⟩, ⟨"GET", "u", none⟩],
            bar := ⟨3, 3⟩ } none := by
  decide

/-- C6, amended: for every successful `HEAD` response, `Download` runs `multiDownload`
(with the declared content length, whatever its value) when the status is `StatusOK`
and `Accept-Ranges` is `bytes`, and runs `singleDownload` in every other case. -/
theorem C6_dispatch_on_status_and_accept_ranges (d : Downloader) (env : Env) (w : World)
    (strURL fileName : String) (resp : Response)
    (hhead : env.roundTrip ⟨"HEAD", strURL, none⟩ = some resp) :
    (resp.StatusCode = StatusOK ∧ resp.AcceptRanges = "bytes" →
        d.Download env w strURL fileName =
          d.multiDownload env (logRequest w ⟨"HEAD", strURL, none⟩) strURL
            (if fileName = "" then env.pathBase strURL else fileName) resp.ContentLength) ∧
      (¬ (resp.StatusCode = StatusOK ∧ resp.AcceptRanges = "bytes") →
        d.Download env w strURL fileName =
          d.singleDownload env (logRequest w ⟨"HEAD", strURL, none⟩) strURL
            (if fileName = "" then env.pathBase strURL else fileName)) := by
  constructor
  · intro h
    simp only [Downloader.Download, hhead]
    rw [if_pos h]
  · intro h
    simp only [Downloader.Download, hhead]
    rw [if_neg h]

/-- The amended C6 at the sample server, declared content length 0. -/
theorem C6_dispatch_on_status_and_accept_ranges_witness :
    (sampleEnv [0, 1, 2] 0).roundTrip ⟨"HEAD", "u", none⟩ = some ⟨200, "bytes", 0, []⟩ ∧
      (((⟨200, "bytes", 0, []⟩ : Response).StatusCode = StatusOK ∧
          (⟨200, "bytes", 0, []⟩ : Response).AcceptRanges = "bytes" →
        (NewDownloader 2 false).Download (sampleEnv [0, 1, 2] 0) (initialWorld []) "u" "a.bin" =
          (NewDownloader 2 false).multiDownload (sampleEnv [0, 1, 2] 0)
            (logRequest (initialWorld []) ⟨"HEAD", "u", none⟩) "u"
            (if "a.bin" = "" then (sampleEnv [0, 1, 2] 0).pathBase "u" else "a.bin")
            (⟨200, "bytes", 0, []⟩ : Response).ContentLength) ∧
      (¬ ((⟨200, "bytes", 0, []⟩ : Response).StatusCode = StatusOK ∧
          (⟨200, "bytes", 0, []⟩ : Response).AcceptRanges = "bytes") →
        (NewDownloader 2 false).Download (sampleEnv [0, 1, 2] 0) (initialWorld []) "u" "a.bin" =
          (NewDownloader 2 false).singleDownload (sampleEnv [0, 1, 2] 0)
            (logRequest (initialWorld []) ⟨"HEAD", "u", none⟩) "u"
            (if "a.bin" = "" then (sampleEnv [0, 1, 2] 0).pathBase "u" else "a.bin"))) :=
  ⟨by decide, C6_dispatch_on_status_and_accept_ranges (NewDownloader 2 false)
    (sampleEnv [0, 1, 2] 0) (initialWorld []) "u" "a.bin" ⟨200, "bytes", 0, []⟩ (by decide)⟩

/-- C7, evaluated at a failing input: `N = 2`, an 8-byte resource and the destination
name `file`. Both parts are fetched and staged under the directory `file`; `merge`
then fails because the destination path is that directory; `multiDownload` still
returns `nil`, with nothing left on disk. In no run does `multiDownload` return a
non-nil error. -/
theorem C7_merge_error_is_dropped :
    (NewDownloader 2 false).fetchParts (sampleEnv [0, 1, 2, 3, 4, 5, 6, 7] 8)
        (initialWorld []) "u" "file" 8 =
      Outcome.ret
        { fs := [("file/file-1", Node.file [5, 6, 7]),
                 ("file/file-0", Node.file [0, 1, 2, 3, 4]), ("file", Node.dir)],
          requests := [⟨"GET", "u", some (0, 4)⟩, ⟨"GET", "u", some (5, 8)⟩],
          bar := ⟨8, 8⟩ } () ∧
      ((NewDownloader 2 false).merge (sampleEnv [0, 1, 2, 3, 4, 5, 6, 7] 8)
        [("file/file-1", Node.file [5, 6, 7]),
         ("file/file-0", Node.file [0, 1, 2, 3, 4]), ("file", Node.dir)] "file").2 =
        some (GoError.isDirectory "file") ∧
      (NewDownloader 2 false).multiDownload (sampleEnv [0, 1, 2, 3, 4, 5, 6, 7] 8)
        (initialWorld []) "u" "file" 8 =
      Outcome.ret
        { fs := [],
          requests := [⟨"GET", "u", some (0, 4)⟩, ⟨"GET", "u", some (5, 8)⟩],
          bar := ⟨8, 8⟩ } none ∧
      ∀ (d : Downloader) (env : Env) (w w1 : World) (strURL fileName : String)
        (contentLen : Int) (err : Option GoError),
        d.multiDownload env w strURL fileName contentLen = Outcome.ret w1 err → err = none := by
  refine ⟨by decide, by decide, by decide, ?_⟩
  intro d env w w1 strURL fileName contentLen err h
  unfold Downloader.multiDownload at h
  split at h
  · cases h
    rfl
  · cases h
  · cases h

/-! ## The staging directory -/

theorem indexDot_eq_none (cs : List Char) (h : '.' ∉ cs) : indexDot cs = none := by
  induction cs with
  | nil => rfl
  | cons c cs ih =>
    simp only [List.mem_cons, not_or] at h
    have hc : ¬ c = '.' := fun e => h.1 e.symm
    simp [indexDot, hc, ih h.2]

theorem indexDot_eq_some (cs : List Char) (h : '.' ∈ cs) :
    ∃ k : Nat, indexDot cs = some k ∧ cs = cs.take k ++ '.' :: cs.drop (k + 1) ∧
      '.' ∉ cs.take k ∧ k < cs.length := by
  induction cs with
  | nil => simp at h
  | cons c cs ih =>
    by_cases hc : c = '.'
    · exact ⟨0, by simp [indexDot, hc], by simp [hc], by simp, by simp⟩
    · have hmem : '.' ∈ cs := by
        rcases List.mem_cons.1 h with e | e
        · exact absurd e.symm hc
        · exact e
      obtain ⟨k, hk, hsplit, hnot, hlt⟩ := ih hmem
      refine ⟨k + 1, by simp [indexDot, hc, hk], ?_, ?_, by simpa using hlt⟩
      · simpa using hsplit
      · simp only [List.take_succ_cons, List.mem_cons, not_or]
        exact ⟨fun e => hc e.symm, hnot⟩

/-- C10: for a destination name without a dot `getPartDir` returns the name itself, so
the staging directory has the path of the destination file; for a name with a dot it
returns the part before the first dot, a proper prefix of the name. -/
theorem C10_getPartDir_is_text_before_first_dot (d : Downloader) (fileName : String) :
    ('.' ∉ fileName.data → d.getPartDir fileName = fileName) ∧
      ('.' ∈ fileName.data →
        ∃ rest : String, fileName = d.getPartDir fileName ++ "." ++ rest ∧
          '.' ∉ (d.getPartDir fileName).data ∧
          (d.getPartDir fileName).length < fileName.length) := by
  constructor
  · intro h
    simp [Downloader.getPartDir, splitN2Dot, indexDot_eq_none _ h]
  · intro h
    obtain ⟨k, hk, hsplit, hnot, hlt⟩ := indexDot_eq_some _ h
    refine ⟨String.mk (fileName.data.drop (k + 1)), ?_, ?_, ?_⟩
    · apply String.ext
      simp only [Downloader.getPartDir, splitN2Dot, hk, List.headD_cons, String.data_append]
      simpa using hsplit
    · simpa [Downloader.getPartDir, splitN2Dot, hk] using hnot
    · simp only [Downloader.getPartDir, splitN2Dot, hk, List.headD_cons, String.length]
      rw [List.length_take]
      omega

/-- C10 at the names `file` and `a.tar.gz`. -/
theorem C10_getPartDir_is_text_before_first_dot_witness :
    ('.' ∉ "file".data ∧ (NewDownloader 4 false).getPartDir "file" = "file") ∧
      ('.' ∈ "a.tar.gz".data ∧
        ∃ rest : String,
          "a.tar.gz" = (NewDownloader 4 false).getPartDir "a.tar.gz" ++ "." ++ rest ∧
          '.' ∉ ((NewDownloader 4 false).getPartDir "a.tar.gz").data ∧
          ((NewDownloader 4 false).getPartDir "a.tar.gz").length < "a.tar.gz".length) :=
  ⟨⟨by decide,
      (C10_getPartDir_is_text_before_first_dot (NewDownloader 4 false) "file").1 (by decide)⟩,
    ⟨by decide,
      (C10_getPartDir_is_text_before_first_dot (NewDownloader 4 false) "a.tar.gz").2
        (by decide)⟩⟩

/-! ## Lemmas on the file system and on part names -/

theorem digitChar_val (k : Nat) (hk : k < 10) : (Nat.digitChar k).toNat - 48 = k := by
  interval_cases k <;> rfl

theorem toDigitsCore_fold (fuel : Nat) : ∀ (n : Nat) (ds : List Char), n < fuel →
    (Nat.toDigitsCore 10 fuel n ds).foldl (fun a c => 10 * a + (c.toNat - 48)) 0 =
      ds.foldl (fun a c => 10 * a + (c.toNat - 48)) n := by
  induction fuel with
  | zero => intro n ds h; omega
  | succ fuel ih =>
    intro n ds h
    rw [Nat.toDigitsCore]
    have hd := digitChar_val (n % 10) (Nat.mod_lt _ (by decide))
    by_cases h0 : n / 10 = 0
    · simp only [h0, if_true, List.foldl_cons, hd]
      congr 1
      omega
    · simp only [h0, if_false]
      rw [ih (n / 10) _ (by omega)]
      simp only [List.foldl_cons, hd]
      congr 1
      omega

theorem Nat_repr_injective (a b : Nat) (h : Nat.repr a = Nat.repr b) : a = b := by
  have h1 : Nat.toDigits 10 a = Nat.toDigits 10 b := by
    have h2 := congrArg String.data h
    simpa [Nat.repr, List.asString] using h2
  have ha := toDigitsCore_fold (a + 1) a [] (by omega)
  have hb := toDigitsCore_fold (b + 1) b [] (by omega)
  simp only [List.foldl_nil] at ha hb
  rw [← ha, ← hb]
  exact congrArg _ h1

theorem toString_natCast_injective (a b : Nat) (h : toString (a : Int) = toString (b : Int)) : a = b := by
  apply Nat_repr_injective
  exact h

theorem lookupNode_eraseNode (fs : FS) (p q : String) :
    lookupNode (eraseNode fs p) q = if q = p then none else lookupNode fs q := by
  induction fs with
  | nil => simp [eraseNode, lookupNode]
  | cons e rest ih =>
    obtain ⟨r, n⟩ := e
    simp only [eraseNode] at ih
    simp only [eraseNode, List.filter_cons]
    by_cases hr : r = p
    · subst hr
      simp only [ne_eq, not_true_eq_false, decide_False, Bool.false_eq_true, if_false, ih,
        lookupNode]
      by_cases hq : q = r
      · simp [hq]
      · have hq2 : ¬ r = q := fun e => hq e.symm
        simp [hq, hq2]
    · simp only [ne_eq, hr, not_false_eq_true, decide_True, if_true, lookupNode, ih]
      by_cases hq : r = q
      · subst hq
        simp [hr]
      · simp [hq]

theorem lookupNode_putNode (fs : FS) (p q : String) (n : Node) :
    lookupNode (putNode fs p n) q = if p = q then some n else lookupNode fs q := by
  simp only [putNode, lookupNode, lookupNode_eraseNode]
  by_cases h : p = q
  · simp [h]
  · have h2 : ¬ q = p := fun e => h e.symm
    simp [h, h2]

theorem getPartFilename_ne (d : Downloader) (fileName : String) (i : Int) :
    d.getPartFilename fileName i ≠ fileName := by
  intro h
  have hlen := congrArg String.length h
  simp only [Downloader.getPartFilename, String.length_append] at hlen
  have h1 : "/".length = 1 := rfl
  omega

theorem getPartFilename_injective (d : Downloader) (fileName : String) (a b : Nat)
    (h : d.getPartFilename fileName (a : Int) = d.getPartFilename fileName (b : Int)) :
    a = b := by
  apply toString_natCast_injective
  have hdata := congrArg String.data h
  simp only [Downloader.getPartFilename, String.data_append, List.append_cancel_left_eq] at hdata
  exact String.ext hdata

theorem writeAt_extend (acc old data : Bytes) :
    writeAt (acc ++ old.drop acc.length) acc.length data =
      (acc ++ data) ++ old.drop (acc ++ data).length := by
  simp [writeAt, List.drop_append, List.take_append, Nat.add_comm]

theorem lookupNode_Remove_of_ne (fs : FS) (p q : String) (h : q ≠ p) :
    lookupNode (Remove fs p) q = lookupNode fs q := by
  unfold Remove
  split
  · simp [lookupNode_eraseNode, h]
  · split
    · rfl
    · simp [lookupNode_eraseNode, h]
  · rfl

theorem lookupNode_copyToDest_same (fs : FS) (fileName : String) (off : Nat) (old data : Bytes)
    (h : lookupNode fs fileName = some (Node.file old)) :
    lookupNode (copyToDest fs fileName off data) fileName =
      some (Node.file (writeAt old off data)) := by
  simp [copyToDest, h, lookupNode_putNode]

theorem lookupNode_copyToDest_of_ne (fs : FS) (fileName q : String) (off : Nat) (data : Bytes)
    (h : q ≠ fileName) :
    lookupNode (copyToDest fs fileName off data) q = lookupNode fs q := by
  unfold copyToDest
  split
  · have h2 : ¬ fileName = q := fun e => h e.symm
    simp [lookupNode_putNode, h2]
  · rfl

theorem OpenFile_ok (env : Env) (fs fs1 : FS) (name : String) (old : Bytes)
    (h : OpenFile env fs name = Except.ok (fs1, old)) :
    lookupNode fs1 name = some (Node.file old) ∧
      ∀ q : String, q ≠ name → lookupNode fs1 q = lookupNode fs q := by
  unfold OpenFile at h
  split at h
  · cases h
  · split at h
    · cases h
    · split at h
      · cases h
      · rename_i old1 hfile
        cases h
        exact ⟨hfile, fun _ _ => rfl⟩
      · split at h
        · cases h
          refine ⟨by simp [lookupNode_putNode], ?_⟩
          intro q hq
          have hq2 : ¬ name = q := fun e => hq e.symm
          simp [lookupNode_putNode, hq2]
        · cases h

theorem mergeLoop_spec (d : Downloader) (env : Env) (fileName : String) (old : Bytes) :
    ∀ (parts : List Bytes) (k : Nat) (fs : FS) (acc : Bytes),
      lookupNode fs fileName = some (Node.file (acc ++ old.drop acc.length)) →
      (∀ (j : Nat) (data : Bytes), parts[j]? = some data →
        env.denyRead (d.getPartFilename fileName ((k + j : Nat) : Int)) = false ∧
        lookupNode fs (d.getPartFilename fileName ((k + j : Nat) : Int)) =
          some (Node.file data)) →
      (d.mergeLoop env fileName parts.length k fs acc.length).2 = none ∧
        lookupNode (d.mergeLoop env fileName parts.length k fs acc.length).1 fileName =
          some (Node.file ((acc ++ parts.flatten) ++ old.drop (acc ++ parts.flatten).length)) := by
  intro parts
  induction parts with
  | nil =>
    intro k fs acc hdest _
    simpa [Downloader.mergeLoop] using hdest
  | cons data rest ih =>
    intro k fs acc hdest hparts
    have hk0 := hparts 0 data (by simp)
    have hread : env.denyRead (d.getPartFilename fileName (k : Int)) = false := by
      simpa using hk0.1
    have hk : lookupNode fs (d.getPartFilename fileName (k : Int)) = some (Node.file data) := by
      simpa using hk0.2
    have hne := getPartFilename_ne d fileName (k : Int)
    have hdest1 : lookupNode
        (Remove (copyToDest fs fileName acc.length data) (d.getPartFilename fileName (k : Int)))
        fileName =
          some (Node.file ((acc ++ data) ++ old.drop (acc ++ data).length)) := by
      rw [lookupNode_Remove_of_ne _ _ _ (Ne.symm hne),
        lookupNode_copyToDest_same _ _ _ _ _ hdest, writeAt_extend]
    have hparts1 : ∀ (j : Nat) (data1 : Bytes), rest[j]? = some data1 →
        env.denyRead (d.getPartFilename fileName ((k + 1 + j : Nat) : Int)) = false ∧
        lookupNode
          (Remove (copyToDest fs fileName acc.length data) (d.getPartFilename fileName (k : Int)))
          (d.getPartFilename fileName ((k + 1 + j : Nat) : Int)) = some (Node.file data1) := by
      intro j data1 hj
      have hjk : d.getPartFilename fileName ((k + 1 + j : Nat) : Int) ≠
          d.getPartFilename fileName (k : Int) := by
        intro e
        have := getPartFilename_injective d fileName _ _ e
        omega
      have := hparts (j + 1) data1 (by simpa using hj)
      rw [show k + (j + 1) = k + 1 + j by omega] at this
      refine ⟨this.1, ?_⟩
      rw [lookupNode_Remove_of_ne _ _ _ hjk,
        lookupNode_copyToDest_of_ne _ _ _ _ _ (getPartFilename_ne d fileName _)]
      exact this.2
    have hrec := ih (k + 1) _ (acc ++ data) hdest1 hparts1
    have hunfold : d.mergeLoop env fileName (data :: rest).length k fs acc.length =
        d.mergeLoop env fileName rest.length ((k + 1 : Nat) : Int)
          (Remove (copyToDest fs fileName acc.length data) (d.getPartFilename fileName (k : Int)))
          (acc ++ data).length := by
      rw [List.length_cons, Downloader.mergeLoop]
      simp only [hread, hk, List.length_append]
      push_cast
      rfl
    rw [hunfold]
    refine ⟨hrec.1, ?_⟩
    simpa [List.append_assoc] using hrec.2

/-! ## The claim on merging -/

/-- C4, refuted: with `N = 2`, parts holding `[1, 2]` and `[3]`, and a destination
`a.bin` that already holds the five bytes `[9, 9, 9, 9, 9]`, `merge` returns `nil` and
leaves `[1, 2, 3, 9, 9]` in the destination, not the concatenation `[1, 2, 3]`. And with
`N = 1`, the destination name `file` and its part `file/file-0` holding `[1]`, the
destination path is the staging directory: `merge` returns the error of `os.OpenFile`
and the destination holds no content. -/
theorem C4_old_tail_survives_merge :
    lookupNode [("a", Node.dir), ("a/a.bin-0", Node.file [1, 2]), ("a/a.bin-1", Node.file [3]),
        ("a.bin", Node.file [9, 9, 9, 9, 9])] ((NewDownloader 2 false).getPartFilename "a.bin" 0)
        = some (Node.file [1, 2]) ∧
      lookupNode [("a", Node.dir), ("a/a.bin-0", Node.file [1, 2]), ("a/a.bin-1", Node.file [3]),
        ("a.bin", Node.file [9, 9, 9, 9, 9])] ((NewDownloader 2 false).getPartFilename "a.bin" 1)
        = some (Node.file [3]) ∧
      (NewDownloader 2 false).merge (sampleEnv [] 0)
        [("a", Node.dir), ("a/a.bin-0", Node.file [1, 2]), ("a/a.bin-1", Node.file [3]),
          ("a.bin", Node.file [9, 9, 9, 9, 9])] "a.bin" =
        ([("a.bin", Node.file [1, 2, 3, 9, 9]), ("a", Node.dir)], none) ∧
      lookupNode ((NewDownloader 2 false).merge (sampleEnv [] 0)
        [("a", Node.dir), ("a/a.bin-0", Node.file [1, 2]), ("a/a.bin-1", Node.file [3]),
          ("a.bin", Node.file [9, 9, 9, 9, 9])] "a.bin").1 "a.bin" ≠
        some (Node.file ([1, 2] ++ [3])) ∧
      lookupNode [("file", Node.dir), ("file/file-0", Node.file [1])]
        ((NewDownloader 1 false).getPartFilename "file" 0) = some (Node.file [1]) ∧
      (NewDownloader 1 false).merge (sampleEnv [] 0)
        [("file", Node.dir), ("file/file-0", Node.file [1])] "file" =
        ([("file", Node.dir), ("file/file-0", Node.file [1])],
          some (GoError.isDirectory "file")) := by
  decide

/-- C4, amended: in every state in which the `N` part files exist as regular files that
can be opened for reading, and in which `os.OpenFile(fileName, O_CREATE|O_WRONLY)`
succeeds on the destination, finding the content `old` there (`old = []` when it
creates the file), `merge` returns `nil` and leaves in the destination the
concatenation of the part contents in ascending index order, followed by the bytes of
`old` that lie beyond the length of that concatenation. When `old` is not longer than
the concatenation, the destination holds exactly the concatenation, and its length is
the sum of the part lengths. -/
theorem C4_merge_concatenates_over_old_content (d : Downloader) (env : Env) (fs fs1 : FS)
    (fileName : String) (parts : List Bytes) (old : Bytes)
    (hN : parts.length = d.concurreny.toNat)
    (hparts : ∀ (i : Nat) (data : Bytes), parts[i]? = some data →
      env.denyRead (d.getPartFilename fileName (i : Int)) = false ∧
      lookupNode fs (d.getPartFilename fileName (i : Int)) = some (Node.file data))
    (hopen : OpenFile env fs fileName = Except.ok (fs1, old)) :
    (d.merge env fs fileName).2 = none ∧
      lookupNode (d.merge env fs fileName).1 fileName =
        some (Node.file (parts.flatten ++ old.drop parts.flatten.length)) ∧
      (old.length ≤ parts.flatten.length →
        lookupNode (d.merge env fs fileName).1 fileName = some (Node.file parts.flatten) ∧
          parts.flatten.length = (parts.map List.length).sum) := by
  obtain ⟨hdest, hframe⟩ := OpenFile_ok env fs fs1 fileName old hopen
  have h1 : lookupNode fs1 fileName =
      some (Node.file (([] : Bytes) ++ List.drop ([] : Bytes).length old)) := by
    simpa using hdest
  have h2 : ∀ (j : Nat) (data : Bytes), parts[j]? = some data →
      env.denyRead (d.getPartFilename fileName ((0 + j : Nat) : Int)) = false ∧
      lookupNode fs1 (d.getPartFilename fileName ((0 + j : Nat) : Int)) =
        some (Node.file data) := by
    intro j data hj
    rw [Nat.zero_add, hframe _ (getPartFilename_ne d fileName _)]
    exact hparts j data hj
  have h := mergeLoop_spec d env fileName old parts 0 fs1 [] h1 h2
  have key : (d.merge env fs fileName).2 = none ∧
      lookupNode (d.merge env fs fileName).1 fileName =
        some (Node.file (parts.flatten ++ old.drop parts.flatten.length)) := by
    simp only [Downloader.merge, hopen, ← hN]
    simpa using h
  refine ⟨key.1, key.2, ?_⟩
  intro hle
  refine ⟨?_, List.length_flatten parts⟩
  rw [key.2, List.drop_eq_nil_of_le hle, List.append_nil]

/-- The amended C4 at the state of the counterexample: two readable parts `[1, 2]` and
`[3]`, and a destination that opens and holds five bytes. -/
theorem C4_merge_concatenates_over_old_content_witness :
    OpenFile (sampleEnv [] 0)
        [("a", Node.dir), ("a/a.bin-0", Node.file [1, 2]), ("a/a.bin-1", Node.file [3]),
          ("a.bin", Node.file [9, 9, 9, 9, 9])] "a.bin" =
      Except.ok ([("a", Node.dir), ("a/a.bin-0", Node.file [1, 2]),
          ("a/a.bin-1", Node.file [3]), ("a.bin", Node.file [9, 9, 9, 9, 9])],
        [9, 9, 9, 9, 9]) ∧
    ((NewDownloader 2 false).merge (sampleEnv [] 0)
        [("a", Node.dir), ("a/a.bin-0", Node.file [1, 2]), ("a/a.bin-1", Node.file [3]),
          ("a.bin", Node.file [9, 9, 9, 9, 9])] "a.bin").2 = none ∧
    lookupNode ((NewDownloader 2 false).merge (sampleEnv [] 0)
        [("a", Node.dir), ("a/a.bin-0", Node.file [1, 2]), ("a/a.bin-1", Node.file [3]),
          ("a.bin", Node.file [9, 9, 9, 9, 9])] "a.bin").1 "a.bin" =
      some (Node.file ([[1, 2], [3]].flatten ++
        List.drop ([[1, 2], [3]] : List Bytes).flatten.length [9, 9, 9, 9, 9])) :=
  have h := C4_merge_concatenates_over_old_content (NewDownloader 2 false) (sampleEnv [] 0)
    [("a", Node.dir), ("a/a.bin-0", Node.file [1, 2]), ("a/a.bin-1", Node.file [3]),
      ("a.bin", Node.file [9, 9, 9, 9, 9])]
    [("a", Node.dir), ("a/a.bin-0", Node.file [1, 2]), ("a/a.bin-1", Node.file [3]),
      ("a.bin", Node.file [9, 9, 9, 9, 9])]
    "a.bin" [[1, 2], [3]] [9, 9, 9, 9, 9]
    (by decide)
    (by
      intro i data h
      match i, h with
      | 0, h => cases h; exact ⟨rfl, by decide⟩
      | 1, h => cases h; exact ⟨rfl, by decide⟩
      | n + 2, h => simp at h)
    rfl
  ⟨rfl, h.1, h.2.1⟩

end FileDownload
